import Mathlib

/-!
Verification of the word-guessing bot (`utils.py`, `buttons.py`) against its
natural-language specification.

The embedding follows the source closely:
* Python `dict` values are association lists in insertion order; assignment
  `d[k] = v` is `dictInsert` (replace in place if the key exists, else append),
  and `d.update(e)` is `dictUpdate` (fold `dictInsert` over `e`).
* The relational store of `DatabaseUtils` is a record `DB` of three tables
  (`users`, `word`, `users_word`) mirroring the columns created by `add_tabl`.
* `GameUtils.word_generator` and the word sources (`read_words_csv`,
  `read_words_bd`, `read_words_bd_added_user`, `get_fallback_words`) are
  embedded over an oracle `GenEnv` supplying the database answers, the CSV file
  contents and the random samples; Python exceptions become `Except String`,
  and the unbounded mutual recursion between the two sources is given a fuel
  parameter, `none` standing for non-termination.
-/

/-! ### Python dictionaries as insertion-ordered association lists -/

/-- Python `d[k] = v`: replace the value at `k` in place if `k` is a key of
`d`, otherwise append the binding at the end. -/
def dictInsert {α : Type} (d : List (String × α)) (k : String) (v : α) :
    List (String × α) :=
  if d.any (fun e => e.1 == k) then
    d.map (fun e => if e.1 == k then (k, v) else e)
  else
    d ++ [(k, v)]

/-- Python `d.update(e)`: insert every binding of `e`, in order, into `d`.
Bindings of `e` whose key already occurs in `d` overwrite the stored value. -/
def dictUpdate {α : Type} (d e : List (String × α)) : List (String × α) :=
  e.foldl (fun acc kv => dictInsert acc kv.1 kv.2) d

/-- The keys of a Python dict, in insertion order. -/
def dictKeys {α : Type} (d : List (String × α)) : List String :=
  d.map (fun e => e.1)

/-- Python `d[k]` as an `Option` (first binding wins; keys are unique in any
dict the program builds). -/
def dictLookup {α : Type} (d : List (String × α)) (k : String) : Option α :=
  (d.find? (fun e => e.1 == k)).map (fun e => e.2)

/-! ### The relational store (`DatabaseUtils.add_tabl` schema) -/

/-- A row of the `users` table: serial `id`, unique `telegram_user_id`,
`name`, `points`. -/
structure UserRow where
  id : Nat
  telegram_user_id : Nat
  name : String
  points : Int
deriving DecidableEq, Repr, Inhabited

/-- A row of the `word` table: serial `id`, nullable `user_id` (the Telegram
id of the owner for personally added words, NULL for the shared pool),
`russian_words`, `translation`. -/
structure WordRow where
  id : Nat
  user_id : Option Nat
  russian_words : String
  translation : String
deriving DecidableEq, Repr, Inhabited

/-- A row of the `users_word` table: serial `id`, internal `user_id`
(references `users.id`), `word_id`, `times_shown`. -/
structure UsersWordRow where
  id : Nat
  user_id : Nat
  word_id : Nat
  times_shown : Int
deriving DecidableEq, Repr, Inhabited

/-- The whole store. -/
structure DB where
  users : List UserRow
  word : List WordRow
  users_word : List UsersWordRow
deriving DecidableEq, Repr, Inhabited

/-- `SELECT u.id FROM users u WHERE u.telegram_user_id = tg` (first row; the
schema declares `telegram_user_id` UNIQUE). -/
def internal_user_id (db : DB) (tg : Nat) : Option Nat :=
  (db.users.find? (fun u => u.telegram_user_id == tg)).map (fun u => u.id)

/-- `DatabaseUtils.search_word`: look a Russian word up in `word`; with a
`user_id` the condition is `user_id = %s`, without it `user_id IS NULL`.
Returns the id of the first matching row, or `none`. -/
def search_word (db : DB) (w : String) (user_id : Option Nat) : Option Nat :=
  match user_id with
  | some uid =>
      (db.word.find? (fun r =>
        decide (r.russian_words = w ∧ r.user_id = some uid))).map (fun r => r.id)
  | none =>
      (db.word.find? (fun r =>
        decide (r.russian_words = w ∧ r.user_id = none))).map (fun r => r.id)

/-- Fresh id for an insert into `word` (SERIAL column). -/
def next_word_id (db : DB) : Nat :=
  (db.word.map (fun r => r.id)).foldr max 0 + 1

/-- `DatabaseUtils.save_word`: insert a row into `word`, carrying the owner's
Telegram id when given; returns the store and the new row id. -/
def save_word (db : DB) (w t : String) (user_id : Option Nat) : DB × Nat :=
  let nid := next_word_id db
  ({ db with word := db.word ++ [⟨nid, user_id, w, t⟩] }, nid)

/-- Cumulative exposure of a word for a user: the SQL
`SELECT SUM(uw.times_shown) FROM users_word uw WHERE uw.user_id = uid AND
uw.word_id = wid`; comparison with a NULL `uid` matches no row. -/
def exposure_sum (db : DB) (uid : Option Nat) (wid : Nat) : Int :=
  ((db.users_word.filter (fun r =>
      decide (some r.user_id = uid ∧ r.word_id = wid))).map
    (fun r => r.times_shown)).sum

/-- Whether a word counts into the `NOT IN` subquery of
`get_random_words_for_user`: grouped exposure sum at least 4. -/
def word_mastered (db : DB) (tg : Nat) (wid : Nat) : Prop :=
  4 ≤ exposure_sum db (internal_user_id db tg) wid

instance (db : DB) (tg wid : Nat) : Decidable (word_mastered db tg wid) := by
  unfold word_mastered; infer_instance

/-- The owner part of the WHERE clause of `get_random_words_for_user`:
`w.user_id = tg` when `flag` is set, `w.user_id IS NULL` otherwise. -/
def owner_cond (w : WordRow) (tg : Nat) (flag : Bool) : Bool :=
  if flag then decide (w.user_id = some tg) else decide (w.user_id = none)

/-- The candidate rows of `DatabaseUtils.get_random_words_for_user`, before
`ORDER BY RANDOM() LIMIT quantity`: words passing the owner condition whose
grouped exposure for the user has not reached 4. -/
def eligible_words (db : DB) (tg : Nat) (flag : Bool) : List WordRow :=
  db.word.filter (fun w =>
    !(decide (word_mastered db tg w.id)) && owner_cond w tg flag)

/-- The status string computed per word by `GameUtils._format_user_words`:
`"<b>изучается</b>" if times_shown is None or times_shown < 4 else "изучено"`. -/
def format_word_status (times_shown : Option Int) : String :=
  match times_shown with
  | none => "<b>изучается</b>"
  | some t => if t < 4 then "<b>изучается</b>" else "изучено"

/-! ### Button labels

Modelled from the spec: the labels live in the repository's `btn_text`
module, which is not under src; the spec only requires distinct special
labels for "show rating", "add word", "remove word" and "back". Their exact
text is irrelevant to every claim; only their distinctness from one another
and from ordinary answers matters. -/

/-- Modelled from the spec: the "show rating" button label from the missing
`btn_text` module. -/
def BTN_VIEW_RATING : String := "Посмотреть рейтинг"

/-- Modelled from the spec: the "add word" button label from the missing
`btn_text` module. -/
def BTN_ADD_WORD : String := "Добавить слово"

/-- Modelled from the spec: the "remove word" button label from the missing
`btn_text` module. -/
def BTN_DEL_WORD : String := "Удалить слово"

/-- Modelled from the spec: the "back" button label from the missing
`btn_text` module. -/
def BTN_Back : String := "Назад"

/-- `DatabaseUtils.update_points`: `points = points + p` (or `- p`) on every
`users` row with the given Telegram id. -/
def update_points (db : DB) (tg : Nat) (points : Int) (add : Bool) : DB :=
  { db with
    users := db.users.map (fun u =>
      if u.telegram_user_id == tg then
        { u with points := if add then u.points + points else u.points - points }
      else u) }

/-- Fresh id for an insert into `users_word` (SERIAL column). -/
def next_users_word_id (db : DB) : Nat :=
  (db.users_word.map (fun r => r.id)).foldr max 0 + 1

/-- `DatabaseUtils.update_times_shown`: select the `users_word` rows for this
word whose `user_id` equals the internal id resolved from the Telegram id; if
one exists, `times_shown = times_shown + 1` on the row whose `id` is the first
selected id; otherwise insert a fresh row with `times_shown = 1`. `none`
models the uncaught `IndexError` when the insert path runs for an unknown
Telegram id (`user_id[0][0]` on an empty selection). -/
def update_times_shown (db : DB) (tg wid : Nat) : Option DB :=
  let uid? := internal_user_id db tg
  let rows := db.users_word.filter (fun r =>
    decide (r.word_id = wid ∧ some r.user_id = uid?))
  match rows.head? with
  | some row =>
      some { db with
        users_word := db.users_word.map (fun r =>
          if r.id == row.id then { r with times_shown := r.times_shown + 1 }
          else r) }
  | none =>
      match uid? with
      | some uid =>
          some { db with
            users_word := db.users_word ++ [⟨next_users_word_id db, uid, wid, 1⟩] }
      | none => none

/-- Which branch of `GameUtils.check_answer` ran. -/
inductive AnswerAction where
  | correct
  | showRating
  | addWord
  | delWord
  | wrong
deriving DecidableEq, Repr

/-- `GameUtils.check_answer`: on the correct translation add one point and
then update the exposure counter; on the three special button labels leave the
store untouched; on any other answer subtract three points. The `Option` on
the store propagates a failure of `update_times_shown`. -/
def check_answer (db : DB) (tg : Nat) (id_word : Nat)
    (correct_translation user_answer : String) : Option DB × AnswerAction :=
  if user_answer == correct_translation then
    (update_times_shown (update_points db tg 1 true) tg id_word, .correct)
  else if user_answer == BTN_VIEW_RATING then (some db, .showRating)
  else if user_answer == BTN_ADD_WORD then (some db, .addWord)
  else if user_answer == BTN_DEL_WORD then (some db, .delWord)
  else (some (update_points db tg 3 false), .wrong)

/-- Outcome reported to the user by `GameUtils._save_new_word` once the input
parsed into a word and a translation. -/
inductive AddWordResult where
  | added (word translation : String)
  | duplicate (word : String)
deriving DecidableEq, Repr

/-- Python truthiness of `search_word`'s result, as tested by
`if not self.db.search_word(word, user_id)`. -/
def py_truthy (x : Option Nat) : Bool :=
  match x with
  | none => false
  | some n => n != 0

/-- The storage decision of `GameUtils._save_new_word` (lines checking for a
duplicate): save the pair under the user's Telegram id when no row for
`(word, user)` exists, otherwise report a duplicate and change nothing. -/
def save_new_word_core (db : DB) (tg : Nat) (word translation : String) :
    DB × AddWordResult :=
  if py_truthy (search_word db word (some tg)) then
    (db, .duplicate word)
  else
    ((save_word db word translation (some tg)).1, .added word translation)

/-- Modelled from the spec: `delete_data` lives in the repository's
`database` module, which is not under src. The spec's VocabularyStore
interface states `deleteUserWord(term, userId) -> success boolean`, so
deletion removes the rows matching `russian_words = word AND user_id = tg`
and reports success exactly when at least one row went away. -/
def delete_data_word (db : DB) (word : String) (tg : Nat) : DB × Bool :=
  let remaining := db.word.filter (fun r =>
    !(decide (r.russian_words = word ∧ r.user_id = some tg)))
  ({ db with word := remaining }, remaining.length != db.word.length)

/-- `DatabaseUtils.delete_word`: delegate to `delete_data` with the condition
`russian_words = %s AND user_id = %s` and return its boolean result. -/
def delete_word (db : DB) (word : String) (tg : Nat) : DB × Bool :=
  delete_data_word db word tg

/-! ### Player rating (`display_player_rating` and helpers) -/

/-- One element of the list built by `DatabaseUtils.get_player_ratings`. -/
structure RatingEntry where
  telegram_user_id : Nat
  name : String
  points : Int
deriving DecidableEq, Repr, Inhabited

/-- `GameUtils._get_medal`: medal glyphs for the first three places, the
number followed by a period otherwise. -/
def get_medal (idx : Nat) : String :=
  if idx = 1 then "🥇"
  else if idx = 2 then "🥈"
  else if idx = 3 then "🥉"
  else toString idx ++ "."

/-- `GameUtils._format_rating_entry`: one rating line, wrapped in `<b>` tags
exactly when the line's position is the requester's own. -/
def format_rating_entry (user_position idx : Nat) (u : RatingEntry) : String :=
  if user_position = idx then
    "<b>" ++ get_medal idx ++ " " ++ u.name ++ " - \"" ++ toString u.points
      ++ " очков\"</b>\n"
  else
    get_medal idx ++ " " ++ u.name ++ " - \"" ++ toString u.points
      ++ " очков\"\n"

/-- The unbolded medal line of the rank-6-and-below branch of
`display_player_rating`. -/
def medal_line (idx : Nat) (u : RatingEntry) : String :=
  get_medal idx ++ " " ++ u.name ++ " - \"" ++ toString u.points ++ " очков\"\n"

/-- The final bolded self line of the rank-6-and-below branch of
`display_player_rating` (tab, numeric position, no trailing newline). -/
def bold_self_line (pos : Nat) (u : RatingEntry) : String :=
  "<b>\t" ++ toString pos ++ "." ++ u.name ++ " - \"" ++ toString u.points
    ++ " очков\"</b>"

/-- The `msg +=` accumulation over `enumerate(entries)` used by the first two
branches of `display_player_rating`. -/
def render_entries (pos : Nat) (entries : List RatingEntry) : String :=
  entries.enum.foldl (fun m p => m ++ format_rating_entry pos (p.1 + 1) p.2) ""

/-- The 1-based position of the requester in the rating data (the
`enumerate` loop searching for `telegram_user_id`). -/
def user_position_in (data : List RatingEntry) (tg : Nat) : Option Nat :=
  (data.findIdx? (fun u => u.telegram_user_id == tg)).map (fun i => i + 1)

/-- `GameUtils.display_player_rating` over the already-fetched rating data:
top three for positions up to 3, the first `pos` entries for positions 4 and
5, and top three plus ellipsis plus a bolded self line from position 6 on. -/
def display_for_position (data : List RatingEntry) (posOpt : Option Nat) :
    String :=
  match posOpt with
  | none => "Пользователь не найден в рейтинге."
  | some pos =>
    if pos ≤ 3 then
      render_entries pos (data.take 3)
    else if pos = 4 ∨ pos = 5 then
      render_entries pos (data.take pos)
    else
      (data.take 3).enum.foldl (fun m p => m ++ medal_line (p.1 + 1) p.2) ""
        ++ "...\n"
        ++ bold_self_line pos (data.getD (pos - 1) default)

/-- `GameUtils.display_player_rating` proper: compute the requester's
position and branch on it. -/
def display_player_rating (data : List RatingEntry) (tg : Nat) : String :=
  display_for_position data (user_position_in data tg)

/-- Number of rating entries in a rendered message: every entry line the
code emits ends in a newline except the final bolded self line of the
rank-6-and-below branch, which is followed by nothing, so entries are
counted as newline-terminated lines plus a leftover unterminated tail. -/
def count_rating_lines (s : String) : Nat :=
  s.data.count '\n' + (if s.data.getLast? = some '\n' ∨ s.data = [] then 0 else 1)

/-! ### The word sources and `word_generator`

The oracle `GenEnv` fixes one behaviour of the outside world: the database
layer (`DbIface`), the CSV file and the random draws. `Except String` models
a raised exception, and for the mutually recursive top-up between
`read_words_csv` and `read_words_bd` a fuel parameter bounds the recursion
depth, the result `none` standing for non-termination. -/

/-- A word mapping as built by the sources: term to (translation, word id),
in insertion order. -/
abbrev GenWordMap := List (String × String × Nat)

/-- The database calls made by the word sources, as one fixed behaviour.
An `Except.error` is a raised storage exception. -/
structure DbIface where
  getRandomWordsForUser : Nat → Nat → Bool → Except String GenWordMap
  searchWordGlobal : String → Except String (Option Nat)
  saveWordGlobal : String → String → Except String Nat

/-- The whole outside world seen by `word_generator`. -/
structure GenEnv where
  db : DbIface
  csvRead : Except String (List (String × String))
  csvWrite : Except String Unit
  sampleCsv : List (String × String) → Nat → List (String × String)
  sampleFallback : List (String × String) → Nat → List (String × String)

/-- The row loop of `read_words_csv`: for each sampled row look the word up,
save it when absent, and bind `term ↦ [translation, id]`. A raised database
exception carries the dictionary built so far, which the `except` clause of
`read_words_csv` keeps using. -/
def csvLoop (db : DbIface) :
    List (String × String) → GenWordMap → Except (String × GenWordMap) GenWordMap
  | [], d => .ok d
  | (w, t) :: rest, d =>
    match db.searchWordGlobal w with
    | .error e => .error (e, d)
    | .ok (some i) => csvLoop db rest (dictInsert d w (t, i))
    | .ok none =>
      match db.saveWordGlobal w t with
      | .error e => .error (e, d)
      | .ok i => csvLoop db rest (dictInsert d w (t, i))

/-- The `except` clause of `read_words_csv`:
`words_dict.update(self.read_words_bd(user_id, quantity))` on the dictionary
built so far — a second exception or non-termination propagates. -/
def except_branch (bd : Nat → Option (Except String GenWordMap))
    (quantity : Nat) (d : GenWordMap) : Option (Except String GenWordMap) :=
  match bd quantity with
  | none => none
  | some (.error e) => some (.error e)
  | some (.ok r) => some (.ok (dictUpdate d r))

/-- The body of `read_words_csv`, with the one-level-lower `read_words_bd`
passed in: read the file, sample `min(len, quantity)` rows past the header,
process them, top up from `read_words_bd` when short, rewrite the file; any
exception inside the `try` falls into `except_branch` with the dictionary
built so far. -/
def csv_body (env : GenEnv) (bd : Nat → Option (Except String GenWordMap))
    (quantity : Nat) : Option (Except String GenWordMap) :=
  match env.csvRead with
  | .error _ => except_branch bd quantity []
  | .ok words =>
    match csvLoop env.db (env.sampleCsv (words.drop 1)
        (if (words.drop 1).length < quantity then (words.drop 1).length
         else quantity)) [] with
    | .error (_, d) => except_branch bd quantity d
    | .ok d =>
      if d.length < quantity then
        match bd (quantity - d.length) with
        | none => none
        | some (.error _) => except_branch bd quantity d
        | some (.ok r) =>
          match env.csvWrite with
          | .error _ => except_branch bd quantity (dictUpdate d r)
          | .ok _ => some (.ok (dictUpdate d r))
      else
        match env.csvWrite with
        | .error _ => except_branch bd quantity d
        | .ok _ => some (.ok d)

/-- The body of `read_words_bd`, with the one-level-lower `read_words_csv`
passed in: query the pool (a raised exception propagates — there is no
`try` here), and when short top up from the CSV source and merge with
`result.update(csv_word)`. -/
def bd_body (env : GenEnv) (u : Nat)
    (csv : Nat → Option (Except String GenWordMap)) (quantity : Nat) :
    Option (Except String GenWordMap) :=
  match env.db.getRandomWordsForUser u quantity false with
  | .error e => some (.error e)
  | .ok result =>
    if result.length < quantity then
      match csv (quantity - result.length) with
      | none => none
      | some (.error e) => some (.error e)
      | some (.ok w) => some (.ok (dictUpdate result w))
    else some (.ok result)

/-- Both sources at every fuel level: the first component is
`read_words_csv`, the second `read_words_bd`; each consumes one level on
every call into the other. -/
def topup_fuel (env : GenEnv) (u : Nat) :
    Nat → ((Nat → Option (Except String GenWordMap))
            × (Nat → Option (Except String GenWordMap)))
  | 0 => (fun _ => none, fun _ => none)
  | fuel + 1 =>
    let p := topup_fuel env u fuel
    (fun quantity => csv_body env p.2 quantity,
     fun quantity => bd_body env u p.1 quantity)

/-- `GameUtils.read_words_csv` at the given fuel. -/
def read_words_csv_f (env : GenEnv) (u fuel quantity : Nat) :
    Option (Except String GenWordMap) :=
  (topup_fuel env u fuel).1 quantity

/-- `GameUtils.read_words_bd` at the given fuel. -/
def read_words_bd_f (env : GenEnv) (u fuel quantity : Nat) :
    Option (Except String GenWordMap) :=
  (topup_fuel env u fuel).2 quantity

/-- `GameUtils.read_words_bd_added_user`: query the user-owned words
(quantity defaults to 4), topping up from `read_words_bd` when short. -/
def read_words_bd_added_user_f (env : GenEnv) (u fuel : Nat) :
    Option (Except String GenWordMap) :=
  match fuel with
  | 0 => none
  | f + 1 =>
    match env.db.getRandomWordsForUser u 4 true with
    | .error e => some (.error e)
    | .ok result =>
      if result.length < 4 then
        match read_words_bd_f env u f (4 - result.length) with
        | none => none
        | some (.error e) => some (.error e)
        | some (.ok w) => some (.ok (dictUpdate result w))
      else some (.ok result)

/-- The fixed 20-pair fallback list of `GameUtils.get_fallback_words`. -/
def fallback_words_list : List (String × String) :=
  [("кот", "cat"), ("собака", "dog"), ("молоко", "milk"), ("хлеб", "bread"),
   ("яблоко", "apple"), ("машина", "car"), ("дом", "house"),
   ("окно", "window"), ("дерево", "tree"), ("книга", "book"),
   ("ручка", "pen"), ("стол", "table"), ("стул", "chair"), ("часы", "clock"),
   ("зонт", "umbrella"), ("солнце", "sun"), ("луна", "moon"),
   ("звезда", "star"), ("рыба", "fish"), ("птица", "bird")]

/-- The loop of `get_fallback_words`: ensure each sampled pair exists in
storage (save when absent) and bind `term ↦ translation`. Database
exceptions propagate (this code runs inside `word_generator`'s `except`
clause, which protects nothing). -/
def fallbackLoop (db : DbIface) :
    List (String × String) → List (String × String) →
    Except String (List (String × String))
  | [], d => .ok d
  | (w, t) :: rest, d =>
    match db.searchWordGlobal w with
    | .error e => .error e
    | .ok none =>
      match db.saveWordGlobal w t with
      | .error e => .error e
      | .ok _ => fallbackLoop db rest (dictInsert d w t)
    | .ok (some _) => fallbackLoop db rest (dictInsert d w t)

/-- `GameUtils.get_fallback_words`: sample `quantity` pairs from the fixed
list and run the ensure-present loop. -/
def get_fallback_words_f (env : GenEnv) (quantity : Nat) :
    Except String (List (String × String)) :=
  fallbackLoop env.db (env.sampleFallback fallback_words_list quantity) []

/-- The source dispatch of `word_generator` on `random.randint(0, 2)`. -/
def chosen_source (env : GenEnv) (u fuel flag : Nat) :
    Option (Except String GenWordMap) :=
  if flag = 0 then read_words_csv_f env u fuel 4
  else if flag = 1 then read_words_bd_added_user_f env u fuel
  else read_words_bd_f env u fuel 4

/-- `GameUtils.word_generator`: pick the source by `flag`; a raised source
exception propagates (the calls sit outside the `try`). From the returned
dictionary take the first key as prompt, its value as translation and id,
and the remaining translations as buttons; only this extraction is inside
the `try`, and its IndexError on an empty dictionary triggers the fallback
path, whose own database calls are unprotected. The round is
(word, translation, buttons, word id). -/
def word_generator_f (env : GenEnv) (u fuel flag : Nat) :
    Option (Except String (String × String × List String × Option Nat)) :=
  match chosen_source env u fuel flag with
  | none => none
  | some (.error e) => some (.error e)
  | some (.ok d) =>
    match d with
    | (w, tv) :: rest =>
        some (.ok (w, tv.1, rest.map (fun e => e.2.1), some tv.2))
    | [] =>
      match get_fallback_words_f env 4 with
      | .error e => some (.error e)
      | .ok fd =>
        match fd with
        | [] => some (.error "IndexError")
        | (w, t) :: rest =>
          match env.db.searchWordGlobal w with
          | .error e => some (.error e)
          | .ok idw => some (.ok (w, t, rest.map (fun e => e.2), idw))

/-! ### Concrete behaviours used to settle the claims -/

/-- A database returning four distinct shared-pool words. -/
def demo_map4 : GenWordMap :=
  [("дом", ("house", 1)), ("кот", ("cat", 2)), ("сад", ("garden", 3)),
   ("мир", ("world", 4))]

/-- A behaviour in which every database query raises. -/
def c1_bad_env : GenEnv :=
  { db := { getRandomWordsForUser := fun _ _ _ => .error "db failure"
            searchWordGlobal := fun _ => .error "db failure"
            saveWordGlobal := fun _ _ => .error "db failure" }
    csvRead := .ok []
    csvWrite := .ok ()
    sampleCsv := fun _ _ => []
    sampleFallback := fun l n => l.take n }

/-- A healthy behaviour: the pool query returns four words, lookups and
saves succeed, the CSV file is empty. -/
def c1_good_env : GenEnv :=
  { db := { getRandomWordsForUser := fun _ _ _ => .ok demo_map4
            searchWordGlobal := fun _ => .ok (some 1)
            saveWordGlobal := fun _ _ => .ok 1 }
    csvRead := .ok []
    csvWrite := .ok ()
    sampleCsv := fun l n => l.take n
    sampleFallback := fun l n => l.take n }

/-- A behaviour whose pool returns one word for term `a` and whose CSV file
supplies three words, among them term `a` again with a different translation
and id, so that the top-up merge runs into the duplicate key. -/
def c3_env : GenEnv :=
  { db := { getRandomWordsForUser := fun _ _ _ => .ok [("a", ("t1", 1))]
            searchWordGlobal := fun w =>
              .ok (some (if w == "a" then 2 else if w == "b" then 3 else 4))
            saveWordGlobal := fun _ _ => .ok 9 }
    csvRead := .ok [("hdr", "hdr"), ("a", "t2"), ("b", "tb"), ("c", "tc")]
    csvWrite := .ok ()
    sampleCsv := fun l n => l.take n
    sampleFallback := fun l n => l.take n }

/-- A healthy behaviour used to exercise the successful round assembly. -/
def c6_env : GenEnv :=
  { db := { getRandomWordsForUser := fun _ _ _ => .ok demo_map4
            searchWordGlobal := fun _ => .ok (some 1)
            saveWordGlobal := fun _ _ => .ok 1 }
    csvRead := .ok []
    csvWrite := .ok ()
    sampleCsv := fun l n => l.take n
    sampleFallback := fun l n => l.take n }

/-- The behaviour in which both word sources are empty: the pool query
returns the empty mapping and the CSV file holds nothing. -/
def c10_empty_env : GenEnv :=
  { db := { getRandomWordsForUser := fun _ _ _ => .ok []
            searchWordGlobal := fun _ => .ok none
            saveWordGlobal := fun _ _ => .ok 1 }
    csvRead := .ok []
    csvWrite := .ok ()
    sampleCsv := fun _ _ => []
    sampleFallback := fun l n => l.take n }

/-- A behaviour whose pool always yields words (up to four). -/
def c10_good_env : GenEnv :=
  { db := { getRandomWordsForUser := fun _ q _ => .ok (demo_map4.take q)
            searchWordGlobal := fun _ => .ok (some 1)
            saveWordGlobal := fun _ _ => .ok 1 }
    csvRead := .ok []
    csvWrite := .ok ()
    sampleCsv := fun l n => l.take n
    sampleFallback := fun l n => l.take n }

/-- A store with one user (internal id 1, Telegram id 100) who has seen word
10 twice. -/
def c4_db : DB :=
  { users := [⟨1, 100, "Анна", 0⟩]
    word := [⟨10, none, "кот", "cat"⟩]
    users_word := [⟨1, 1, 10, 2⟩] }

/-- A store with one user (internal id 1, Telegram id 100) who has seen word
10 three times; word 20 has never been shown. -/
def c5_db : DB :=
  { users := [⟨1, 100, "Боб", 5⟩]
    word := [⟨10, none, "кот", "cat"⟩, ⟨20, none, "дом", "house"⟩]
    users_word := [⟨7, 1, 10, 3⟩] }

/-- A store in which user 100 already owns the word `кот`. -/
def c9_db : DB :=
  { users := [⟨1, 100, "Ева", 0⟩]
    word := [⟨3, some 100, "кот", "cat"⟩]
    users_word := [] }

/-- Five rated users; the requester (Telegram id 202) is ranked second. -/
def c7_data : List RatingEntry :=
  [⟨201, "Алиса", 100⟩, ⟨202, "Борис", 90⟩, ⟨203, "Вера", 80⟩,
   ⟨204, "Глеб", 70⟩, ⟨205, "Дана", 60⟩]

/-- Six rated users with points 100..50; the requester (Telegram id 306) is
ranked sixth with 50 points. -/
def c8_data : List RatingEntry :=
  [⟨301, "Анна", 100⟩, ⟨302, "Борис", 90⟩, ⟨303, "Вера", 80⟩,
   ⟨304, "Глеб", 70⟩, ⟨305, "Дана", 60⟩, ⟨306, "Егор", 50⟩]

/-! ### Dictionary lemmas -/

lemma dictInsert_ne_nil {α : Type} (d : List (String × α)) (k : String) (v : α) :
    dictInsert d k v ≠ [] := by
  unfold dictInsert
  split
  · rename_i h
    cases d with
    | nil => simp at h
    | cons a rest => simp
  · simp

lemma dictLookup_insert_self {α : Type} (d : List (String × α)) (k : String)
    (v : α) : dictLookup (dictInsert d k v) k = some v := by
  unfold dictInsert
  by_cases hany : d.any (fun e => e.1 == k)
  · rw [if_pos hany]
    unfold dictLookup
    rw [List.find?_map]
    have hpred : ((fun e : String × α => e.1 == k)
        ∘ fun e => if e.1 == k then (k, v) else e)
        = fun e : String × α => e.1 == k := by
      funext e
      by_cases h : e.1 == k <;> simp [Function.comp, h]
    rw [hpred]
    obtain ⟨e₀, he₀mem, he₀⟩ := List.any_eq_true.mp hany
    have hsome : (d.find? (fun e => e.1 == k)).isSome :=
      List.find?_isSome.mpr ⟨e₀, he₀mem, he₀⟩
    obtain ⟨e₁, he₁⟩ := Option.isSome_iff_exists.mp hsome
    have hp : e₁.1 = k := by simpa using List.find?_some he₁
    simp [he₁, hp]
  · rw [if_neg hany]
    unfold dictLookup
    rw [List.find?_append]
    have hnone : d.find? (fun e => e.1 == k) = none := by
      rw [List.find?_eq_none]
      intro x hx hpx
      exact hany (List.any_eq_true.mpr ⟨x, hx, hpx⟩)
    simp [hnone, List.find?]

lemma dictLookup_insert_ne {α : Type} (d : List (String × α)) (k k' : String)
    (v : α) (hne : k' ≠ k) :
    dictLookup (dictInsert d k v) k' = dictLookup d k' := by
  unfold dictInsert
  by_cases hany : d.any (fun e => e.1 == k)
  · rw [if_pos hany]
    unfold dictLookup
    rw [List.find?_map]
    have hpred : ((fun e : String × α => e.1 == k')
        ∘ fun e => if e.1 == k then (k, v) else e)
        = fun e : String × α => e.1 == k' := by
      funext e
      by_cases h : e.1 == k
      · have he : e.1 = k := by simpa using h
        simp [Function.comp, h, he]
      · simp [Function.comp, h]
    rw [hpred]
    cases hf : d.find? (fun e => e.1 == k') with
    | none => simp [hf]
    | some e₁ =>
      have he₁ : e₁.1 = k' := by simpa using List.find?_some hf
      have hne₁ : ¬ e₁.1 = k := by rw [he₁]; exact hne
      simp [hf, hne₁]
  · rw [if_neg hany]
    unfold dictLookup
    rw [List.find?_append]
    cases hf : d.find? (fun e => e.1 == k') with
    | some e₁ => simp [hf]
    | none =>
      have : ((k, v).1 == k') = false := by simp [Ne.symm hne]
      simp [hf, List.find?, this]

lemma dictLookup_update_of_not_mem {α : Type} (d e : List (String × α))
    (k : String) (hk : ∀ p ∈ e, p.1 ≠ k) :
    dictLookup (dictUpdate d e) k = dictLookup d k := by
  induction e generalizing d with
  | nil => rfl
  | cons x rest ih =>
    show dictLookup (dictUpdate (dictInsert d x.1 x.2) rest) k = _
    rw [ih (dictInsert d x.1 x.2) (fun p hp => hk p (List.mem_cons_of_mem _ hp))]
    exact dictLookup_insert_ne d x.1 k x.2
      (fun hc => hk x (List.mem_cons_self _ _) (hc ▸ rfl))

/-! ### Theorems for the claims -/

/-- Claim C2: a word is classified as mastered ("изучено") iff its
`times_shown` is non-null and at least 4, and the same threshold governs
eligibility in the word sources: a word passes the WHERE clause of
`get_random_words_for_user` iff it satisfies the owner condition and its
cumulative exposure for the user is below 4. -/
theorem c2_mastery_threshold :
    (∀ t : Option Int, format_word_status t = "изучено" ↔ ∃ n, t = some n ∧ 4 ≤ n)
    ∧ ∀ (db : DB) (tg : Nat) (flag : Bool) (w : WordRow),
        w ∈ eligible_words db tg flag ↔
          w ∈ db.word ∧ owner_cond w tg flag = true ∧
            exposure_sum db (internal_user_id db tg) w.id < 4 := by
  constructor
  · intro t
    match t with
    | none =>
      constructor
      · intro h; exact absurd h (by decide)
      · rintro ⟨n, hn, -⟩; cases hn
    | some n =>
      by_cases h4 : n < 4
      · simp only [format_word_status, if_pos h4]
        constructor
        · intro h; exact absurd h (by decide)
        · rintro ⟨m, hm, hle⟩
          injection hm with hm
          omega
      · simp only [format_word_status, if_neg h4]
        constructor
        · intro _; exact ⟨n, rfl, by omega⟩
        · intro _; trivial
  · intro db tg flag w
    simp only [eligible_words, List.mem_filter, Bool.and_eq_true,
      Bool.not_eq_true', decide_eq_false_iff_not, word_mastered, not_le]
    tauto

/-- Claim C3 counterexample: the pool source returns the mapping
`{a: [t1, 1]}` and the CSV top-up supplies `a` again with `[t2, 2]`; after
`result.update(csv_word)` the final mapping holds the top-up entry
`[t2, 2]` for `a`, not the original `[t1, 1]` — the merge is not
left-biased. -/
theorem c3_counterexample :
    c3_env.db.getRandomWordsForUser 1 4 false = Except.ok [("a", ("t1", 1))]
    ∧ read_words_bd_f c3_env 1 2 4
        = some (Except.ok [("a", ("t2", 2)), ("b", ("tb", 3)), ("c", ("tc", 4))])
    ∧ dictLookup [("a", ("t2", 2)), ("b", ("tb", 3)), ("c", ("tc", 4))] "a"
        ≠ some ("t1", 1) := by
  refine ⟨rfl, rfl, by decide⟩

/-- Claim C3 amended: the merge `words_dict.update(result)` used by
`read_words_csv` and `read_words_bd` is right-biased — for a term present in
both mappings the merged mapping keeps the later (top-up) entry's
translation and word id, the original entry being overwritten in place. -/
theorem c3_merge_right_biased {α : Type} (d e : List (String × α)) (k : String)
    (hk : ∃ v, dictLookup e k = some v) (hnodup : (dictKeys e).Nodup) :
    dictLookup (dictUpdate d e) k = dictLookup e k := by
  induction e generalizing d with
  | nil =>
    obtain ⟨v, hv⟩ := hk
    simp [dictLookup] at hv
  | cons x rest ih =>
    have hstep : dictUpdate d (x :: rest) = dictUpdate (dictInsert d x.1 x.2) rest := rfl
    rw [hstep]
    by_cases hx : x.1 = k
    · have hvx : dictLookup (x :: rest) k = some x.2 := by
        simp [dictLookup, List.find?_cons, hx]
      have hrest : ∀ p ∈ rest, p.1 ≠ k := by
        intro p hp hpk
        have hmem : x.1 ∈ dictKeys rest := by
          rw [hx, ← hpk]
          exact List.mem_map_of_mem (fun e => e.1) hp
        have hnotin : x.1 ∉ dictKeys rest := by
          have hh := hnodup
          simp only [dictKeys, List.map_cons, List.nodup_cons] at hh
          exact hh.1
        exact hnotin hmem
      rw [dictLookup_update_of_not_mem _ _ _ hrest, hvx, ← hx,
        dictLookup_insert_self]
    · have htail : dictLookup (x :: rest) k = dictLookup rest k := by
        simp only [dictLookup, List.find?_cons]
        rw [show ((x.1 == k) = false) from by simp [hx]]
      have hkrest : ∃ v, dictLookup rest k = some v := by
        obtain ⟨v, hv⟩ := hk
        exact ⟨v, by rw [← htail, hv]⟩
      have hnodup' : (dictKeys rest).Nodup := by
        have hh := hnodup
        simp only [dictKeys, List.map_cons, List.nodup_cons] at hh
        exact hh.2
      rw [htail]
      exact ih (dictInsert d x.1 x.2) hkrest hnodup'

/-- Claim C3 amended witness: overwriting observed on a concrete merge. -/
theorem c3_witness :
    dictLookup (dictUpdate [("a", ("t1", (1 : Nat)))] [("a", ("t2", 2))]) "a"
      = dictLookup [("a", ("t2", 2))] "a" :=
  c3_merge_right_biased [("a", ("t1", 1))] [("a", ("t2", 2))] "a"
    ⟨("t2", 2), rfl⟩ (by decide)

/-- Claim C9: adding a word that already exists in the user's personal store
reports a duplicate and leaves the store unchanged (no second row), and
deleting a word the user does not own returns the failure boolean with the
store unchanged — a total result, not an exception. The `delete_data` layer
is modelled from the spec (`database` module not under src). -/
theorem c9_duplicate_add_and_failed_delete (db : DB) (tg : Nat)
    (w1 t w2 : String)
    (hdup : ∃ i, search_word db w1 (some tg) = some i ∧ i ≠ 0)
    (hmiss : ∀ r ∈ db.word, ¬(r.russian_words = w2 ∧ r.user_id = some tg)) :
    save_new_word_core db tg w1 t = (db, AddWordResult.duplicate w1)
      ∧ delete_word db w2 tg = (db, false) := by
  obtain ⟨i, hi, hne⟩ := hdup
  constructor
  · unfold save_new_word_core
    rw [hi]
    have htr : py_truthy (some i) = true := by
      simp [py_truthy, hne]
    rw [htr]
    simp
  · unfold delete_word delete_data_word
    have hfil : db.word.filter
        (fun r => !(decide (r.russian_words = w2 ∧ r.user_id = some tg)))
        = db.word := by
      apply List.filter_eq_self.mpr
      intro r hr
      simp only [Bool.not_eq_true', decide_eq_false_iff_not]
      exact hmiss r hr
    rw [hfil]
    simp

/-- Claim C9 witness: duplicate `кот` for user 100 and missing `пёс`. -/
theorem c9_witness :
    (∃ i, search_word c9_db "кот" (some 100) = some i ∧ i ≠ 0)
      ∧ save_new_word_core c9_db 100 "кот" "cat" = (c9_db, AddWordResult.duplicate "кот")
      ∧ delete_word c9_db "пёс" 100 = (c9_db, false) :=
  ⟨⟨3, rfl, by decide⟩,
    c9_duplicate_add_and_failed_delete c9_db 100 "кот" "cat" "пёс"
      ⟨3, rfl, by decide⟩ (by decide)⟩

/-- Claim C6: when the chosen source yields a mapping of `q` words, the
generated round takes the first word as prompt, its stored translation and
id as the correct pair, and the translations of the remaining `q - 1` words
as distractors; the prompt term differs from every remaining term. -/
theorem c6_round_shape (env : GenEnv) (u fuel flag q : Nat) (d : GenWordMap)
    (hsrc : chosen_source env u fuel flag = some (Except.ok d))
    (hlen : d.length = q) (hq : 1 ≤ q) (hnodup : (dictKeys d).Nodup) :
    ∃ w tv rest, d = (w, tv) :: rest
      ∧ word_generator_f env u fuel flag
          = some (Except.ok (w, tv.1, rest.map (fun e => e.2.1), some tv.2))
      ∧ (rest.map (fun e => e.2.1)).length = q - 1
      ∧ w ∉ rest.map (fun e => e.1) := by
  match d, hlen with
  | [], hlen =>
    exfalso
    simp at hlen
    omega
  | (w, tv) :: rest, hlen =>
    refine ⟨w, tv, rest, rfl, ?_, ?_, ?_⟩
    · unfold word_generator_f
      rw [hsrc]
    · simp only [List.length_map]
      simp only [List.length_cons] at hlen
      omega
    · have hn := hnodup
      simp only [dictKeys, List.map_cons, List.nodup_cons] at hn
      exact hn.1

/-- Claim C6 witness: a four-word mapping from the pool produces a round
with three distractor translations and a prompt distinct from the remaining
terms. -/
theorem c6_witness :
    chosen_source c6_env 1 1 2 = some (Except.ok demo_map4)
      ∧ (dictKeys demo_map4).Nodup
      ∧ ∃ w tv rest, demo_map4 = (w, tv) :: rest
          ∧ word_generator_f c6_env 1 1 2
              = some (Except.ok (w, tv.1, rest.map (fun e => e.2.1), some tv.2))
          ∧ (rest.map (fun e => e.2.1)).length = 4 - 1
          ∧ w ∉ rest.map (fun e => e.1) :=
  ⟨rfl, by decide,
    c6_round_shape c6_env 1 1 2 4 demo_map4 rfl rfl (by decide) (by decide)⟩

/-- Claim C4 counterexample: user 100 has seen word 10 twice; answering the
round for word 10 wrongly ("dog" against correct "cat") completes a
presentation, yet the exposure table is untouched — the counter is not
incremented on an incorrect answer. -/
theorem c4_counterexample :
    (check_answer c4_db 100 10 "cat" "dog").2 = AnswerAction.wrong
    ∧ (check_answer c4_db 100 10 "cat" "dog").1
        = some (update_points c4_db 100 3 false)
    ∧ (update_points c4_db 100 3 false).users_word = c4_db.users_word
    ∧ exposure_sum c4_db (internal_user_id c4_db 100) 10 = 2 := by
  refine ⟨by decide, by decide, rfl, by decide⟩

/-- Claim C7 counterexample: with five rated users and the requester ranked
second, the rendered rating holds three entries (ranks 1..3), not two. -/
theorem c7_counterexample :
    count_rating_lines (display_player_rating c7_data 202) = 3
    ∧ count_rating_lines (display_player_rating c7_data 202) ≠ 2 := by
  refine ⟨by decide, by decide⟩

/-- Claim C7 amended: for a requester ranked 2nd among 5 users the code
renders the top-3 branch — exactly three entries (ranks 1..3), with the
second (the requester's own) wrapped in bold tags, the other two plain. -/
theorem c7_rank2_of5_three_entries (data : List RatingEntry) (tg : Nat)
    (hlen : data.length = 5) (hpos : user_position_in data tg = some 2) :
    ∃ u1 u2 u3, data.take 3 = [u1, u2, u3] ∧ u2.telegram_user_id = tg
      ∧ display_player_rating data tg
          = format_rating_entry 2 1 u1 ++ format_rating_entry 2 2 u2
            ++ format_rating_entry 2 3 u3
      ∧ format_rating_entry 2 2 u2
          = "<b>" ++ get_medal 2 ++ " " ++ u2.name ++ " - \""
            ++ toString u2.points ++ " очков\"</b>\n"
      ∧ format_rating_entry 2 1 u1
          = get_medal 1 ++ " " ++ u1.name ++ " - \"" ++ toString u1.points
            ++ " очков\"\n"
      ∧ format_rating_entry 2 3 u3
          = get_medal 3 ++ " " ++ u3.name ++ " - \"" ++ toString u3.points
            ++ " очков\"\n"
      ∧ get_medal 2 = "🥈" := by
  have hpos' := hpos
  simp only [user_position_in, Option.map_eq_some'] at hpos
  obtain ⟨i, hfind, hi⟩ := hpos
  have hi1 : i = 1 := by omega
  subst hi1
  rw [List.findIdx?_eq_some_iff_getElem] at hfind
  obtain ⟨hlt, hp, -⟩ := hfind
  rcases data with _ | ⟨a, data1⟩
  · simp at hlen
  rcases data1 with _ | ⟨b, data2⟩
  · simp at hlen
  rcases data2 with _ | ⟨c, data3⟩
  · simp at hlen
  have hb : b.telegram_user_id = tg := by simpa using hp
  refine ⟨a, b, c, rfl, hb, ?_, ?_, ?_, ?_, rfl⟩
  · unfold display_player_rating
    rw [hpos']
    simp only [display_for_position]
    rw [if_pos (by omega : (2 : Nat) ≤ 3)]
    show render_entries 2 [a, b, c] = _
    simp [render_entries, List.enum, List.enumFrom]
  · simp [format_rating_entry]
  · simp [format_rating_entry]
  · simp [format_rating_entry]

/-- Claim C7 amended witness: the concrete five-user rating with the
requester ranked second renders three entries with the second bolded. -/
theorem c7_witness :
    c7_data.length = 5
      ∧ user_position_in c7_data 202 = some 2
      ∧ ∃ u1 u2 u3, c7_data.take 3 = [u1, u2, u3] ∧ u2.telegram_user_id = 202
          ∧ display_player_rating c7_data 202
              = format_rating_entry 2 1 u1 ++ format_rating_entry 2 2 u2
                ++ format_rating_entry 2 3 u3
          ∧ format_rating_entry 2 2 u2
              = "<b>" ++ get_medal 2 ++ " " ++ u2.name ++ " - \""
                ++ toString u2.points ++ " очков\"</b>\n"
          ∧ format_rating_entry 2 1 u1
              = get_medal 1 ++ " " ++ u1.name ++ " - \"" ++ toString u1.points
                ++ " очков\"\n"
          ∧ format_rating_entry 2 3 u3
              = get_medal 3 ++ " " ++ u3.name ++ " - \"" ++ toString u3.points
                ++ " очков\"\n"
          ∧ get_medal 2 = "🥈" :=
  ⟨rfl, rfl, c7_rank2_of5_three_entries c7_data 202 rfl rfl⟩

/-- Claim C8: for a requester ranked 6th or below the code renders the top
three entries with medal glyphs (🥇, 🥈, 🥉; the number with a period for any
other rank), an ellipsis line, and exactly one final bolded entry holding
the requester's rank, name and points. -/
theorem c8_high_rank_render (data : List RatingEntry) (tg pos : Nat)
    (hpos : user_position_in data tg = some pos) (h6 : 6 ≤ pos) :
    ∃ u1 u2 u3 rest self, data = u1 :: u2 :: u3 :: rest
      ∧ data.get? (pos - 1) = some self ∧ self.telegram_user_id = tg
      ∧ display_player_rating data tg
          = medal_line 1 u1 ++ medal_line 2 u2 ++ medal_line 3 u3 ++ "...\n"
            ++ bold_self_line pos self
      ∧ get_medal 1 = "🥇" ∧ get_medal 2 = "🥈" ∧ get_medal 3 = "🥉"
      ∧ (∀ n, 4 ≤ n → get_medal n = toString n ++ ".")
      ∧ bold_self_line pos self
          = "<b>\t" ++ toString pos ++ "." ++ self.name ++ " - \""
            ++ toString self.points ++ " очков\"</b>" := by
  have hpos' := hpos
  simp only [user_position_in, Option.map_eq_some'] at hpos
  obtain ⟨i, hfind, hi⟩ := hpos
  rw [List.findIdx?_eq_some_iff_getElem] at hfind
  obtain ⟨hlt, hp, -⟩ := hfind
  have hipos : i = pos - 1 := by omega
  subst hipos
  rcases data with _ | ⟨u1, d1⟩
  · simp at hlt
  rcases d1 with _ | ⟨u2, d2⟩
  · simp at hlt; omega
  rcases d2 with _ | ⟨u3, d3⟩
  · simp at hlt; omega
  refine ⟨u1, u2, u3, d3, (u1 :: u2 :: u3 :: d3).get ⟨pos - 1, hlt⟩, rfl, ?_,
    ?_, ?_, rfl, rfl, rfl, ?_, rfl⟩
  · rw [List.get?_eq_getElem?, List.getElem?_eq_getElem hlt]
    rfl
  · simpa using hp
  · unfold display_player_rating
    rw [hpos']
    simp only [display_for_position]
    rw [if_neg (by omega : ¬ pos ≤ 3)]
    rw [if_neg (by omega : ¬ (pos = 4 ∨ pos = 5))]
    have htake : (u1 :: u2 :: u3 :: d3).take 3 = [u1, u2, u3] := rfl
    rw [htake]
    have hgetD : (u1 :: u2 :: u3 :: d3).getD (pos - 1) default
        = (u1 :: u2 :: u3 :: d3).get ⟨pos - 1, hlt⟩ := by
      rw [List.getD_eq_getElem?_getD, List.getElem?_eq_getElem hlt]
      rfl
    rw [hgetD]
    simp [List.enum, List.enumFrom, medal_line]
  · intro n hn
    unfold get_medal
    rw [if_neg (by omega), if_neg (by omega), if_neg (by omega)]

/-- Claim C8 witness: six users with points 100..50, requester ranked 6th. -/
theorem c8_witness :
    user_position_in c8_data 306 = some 6
      ∧ ∃ u1 u2 u3 rest self, c8_data = u1 :: u2 :: u3 :: rest
          ∧ c8_data.get? (6 - 1) = some self ∧ self.telegram_user_id = 306
          ∧ display_player_rating c8_data 306
              = medal_line 1 u1 ++ medal_line 2 u2 ++ medal_line 3 u3 ++ "...\n"
                ++ bold_self_line 6 self
          ∧ get_medal 1 = "🥇" ∧ get_medal 2 = "🥈" ∧ get_medal 3 = "🥉"
          ∧ (∀ n, 4 ≤ n → get_medal n = toString n ++ ".")
          ∧ bold_self_line 6 self
              = "<b>\t" ++ toString 6 ++ "." ++ self.name ++ " - \""
                ++ toString self.points ++ " очков\"</b>" :=
  ⟨rfl, c8_high_rank_render c8_data 306 6 rfl (by omega)⟩

/-! ### Exposure-counter lemmas -/

lemma update_points_users_word (db : DB) (tg : Nat) (p : Int) (a : Bool) :
    (update_points db tg p a).users_word = db.users_word := rfl

lemma internal_user_id_update_points (db : DB) (tg : Nat) (p : Int) (a : Bool)
    (tg' : Nat) :
    internal_user_id (update_points db tg p a) tg' = internal_user_id db tg' := by
  unfold internal_user_id update_points
  rw [List.find?_map]
  have hpred : ((fun u : UserRow => u.telegram_user_id == tg')
      ∘ fun u => if u.telegram_user_id == tg then
        { u with points := if a then u.points + p else u.points - p } else u)
      = fun u : UserRow => u.telegram_user_id == tg' := by
    funext u
    by_cases h : u.telegram_user_id == tg <;> simp [Function.comp, h]
  rw [hpred]
  cases hf : db.users.find? (fun u => u.telegram_user_id == tg') with
  | none => simp [hf]
  | some u₀ =>
    simp only [hf, Option.map_some']
    split <;> rfl

lemma exposure_sum_db_rewrite (db : DB) (l : List UsersWordRow)
    (uid : Option Nat) (wid : Nat) :
    exposure_sum { db with users_word := l } uid wid
      = ((l.filter (fun r => decide (some r.user_id = uid ∧ r.word_id = wid))).map
          (fun r => r.times_shown)).sum := rfl

/-- Incrementing the first matching row raises the cumulative exposure sum
for the pair by exactly one (row ids are unique). -/
lemma sum_times_shown_inc (l : List UsersWordRow) (row : UsersWordRow)
    (uid wid : Nat) (hmem : row ∈ l)
    (hrow : some row.user_id = some uid ∧ row.word_id = wid)
    (hnodup : (l.map (fun r => r.id)).Nodup) :
    (((l.map (fun r => if r.id == row.id
          then { r with times_shown := r.times_shown + 1 } else r)).filter
        (fun r => decide (some r.user_id = some uid ∧ r.word_id = wid))).map
      (fun r => r.times_shown)).sum
      = ((l.filter (fun r => decide (some r.user_id = some uid ∧ r.word_id = wid))).map
          (fun r => r.times_shown)).sum + 1 := by
  induction l with
  | nil => cases hmem
  | cons a rest ih =>
    simp only [List.map_cons, List.nodup_cons] at hnodup
    obtain ⟨hna, hnr⟩ := hnodup
    rcases List.mem_cons.mp hmem with rfl | hmemr
    · have hrest : rest.map (fun r => if r.id == row.id
          then { r with times_shown := r.times_shown + 1 } else r) = rest := by
        have hcong : ∀ r ∈ rest, (if r.id == row.id
            then { r with times_shown := r.times_shown + 1 } else r) = r := by
          intro r hr
          rw [if_neg]
          intro hc
          have hid : r.id = row.id := by simpa using hc
          exact hna (hid ▸ List.mem_map_of_mem (fun r => r.id) hr)
        rw [List.map_congr_left hcong]
        simp
      have hbeq : (row.id == row.id) = true := by simp
      simp only [List.map_cons, hbeq, if_true, hrest, List.filter_cons]
      simp [hrow.1, hrow.2]
      omega
    · have hane : ¬ (a.id == row.id) = true := by
        intro hc
        have hid : a.id = row.id := by simpa using hc
        exact hna (hid ▸ List.mem_map_of_mem (fun r => r.id) hmemr)
      simp only [List.map_cons, if_neg hane]
      by_cases hpa : (some a.user_id = some uid ∧ a.word_id = wid)
      · simp only [List.filter_cons]
        simp only [show decide (some a.user_id = some uid ∧ a.word_id = wid)
            = true from by simpa using hpa, if_true]
        simp only [List.map_cons, List.sum_cons]
        rw [ih hmemr hnr]
        omega
      · simp only [List.filter_cons]
        simp only [show decide (some a.user_id = some uid ∧ a.word_id = wid)
            = false from by simpa using hpa, Bool.false_eq_true, if_false]
        exact ih hmemr hnr

/-- One call to `update_times_shown` raises the exposure sum of the target
pair by exactly one, leaving the other tables alone. -/
lemma update_times_shown_sum (db : DB) (tg wid uid : Nat)
    (huid : internal_user_id db tg = some uid)
    (hnodup : (db.users_word.map (fun r => r.id)).Nodup) :
    ∃ db2, update_times_shown db tg wid = some db2
      ∧ db2.users = db.users ∧ db2.word = db.word
      ∧ exposure_sum db2 (some uid) wid = exposure_sum db (some uid) wid + 1 := by
  cases hh : (db.users_word.filter (fun r =>
      decide (r.word_id = wid ∧ some r.user_id = some uid))).head? with
  | none =>
    refine ⟨{ db with users_word := db.users_word
        ++ [⟨next_users_word_id db, uid, wid, 1⟩] }, ?_, rfl, rfl, ?_⟩
    · simp only [update_times_shown, huid, hh]
    · have hempty := List.head?_eq_none_iff.mp hh
      have hnil : db.users_word.filter (fun r =>
          decide (some r.user_id = some uid ∧ r.word_id = wid)) = [] := by
        rw [List.filter_eq_nil_iff]
        intro r hr hpr
        have hq : ∀ x ∈ db.users_word,
            ¬ (decide (x.word_id = wid ∧ some x.user_id = some uid)) = true :=
          List.filter_eq_nil_iff.mp hempty
        have hpr' : some r.user_id = some uid ∧ r.word_id = wid := by
          simpa using hpr
        exact hq r hr (by simp [hpr'.1, hpr'.2])
      rw [exposure_sum_db_rewrite, List.filter_append, hnil]
      have hdb : exposure_sum db (some uid) wid = 0 := by
        unfold exposure_sum
        rw [hnil]
        rfl
      rw [hdb]
      simp
  | some row =>
    have hrowmem : row ∈ db.users_word.filter (fun r =>
        decide (r.word_id = wid ∧ some r.user_id = some uid)) :=
      List.mem_of_mem_head? (by rw [hh]; exact Option.mem_some_iff.mpr rfl)
    obtain ⟨hmem, hprop⟩ := List.mem_filter.mp hrowmem
    have hrow : some row.user_id = some uid ∧ row.word_id = wid := by
      have hand := of_decide_eq_true hprop
      exact ⟨hand.2, hand.1⟩
    refine ⟨{ db with users_word := db.users_word.map (fun r =>
        if r.id == row.id then { r with times_shown := r.times_shown + 1 }
        else r) }, ?_, rfl, rfl, ?_⟩
    · simp only [update_times_shown, huid, hh]
    · rw [exposure_sum_db_rewrite]
      exact sum_times_shown_inc db.users_word row uid wid hmem hrow hnodup

/-- Claim C4 amended: the exposure counter is updated only on a correct
answer — a correct answer raises the pair's cumulative `times_shown` by
exactly one, while a wrong answer (not matching any special button) deducts
points and leaves the exposure table untouched. -/
theorem c4_exposure_only_on_correct (db : DB) (tg wid uid : Nat)
    (ct ans : String)
    (huid : internal_user_id db tg = some uid)
    (hnodup : (db.users_word.map (fun r => r.id)).Nodup) :
    (ans = ct → ∃ db2, (check_answer db tg wid ct ans).1 = some db2
        ∧ exposure_sum db2 (some uid) wid
            = exposure_sum db (some uid) wid + 1)
    ∧ (ans ≠ ct → ans ≠ BTN_VIEW_RATING → ans ≠ BTN_ADD_WORD →
        ans ≠ BTN_DEL_WORD →
        (check_answer db tg wid ct ans).1 = some (update_points db tg 3 false)
          ∧ (update_points db tg 3 false).users_word = db.users_word
          ∧ (check_answer db tg wid ct ans).2 = AnswerAction.wrong) := by
  constructor
  · intro heq
    subst heq
    have hbeq : (ans == ans) = true := by simp
    have hpts_uid : internal_user_id (update_points db tg 1 true) tg = some uid := by
      rw [internal_user_id_update_points]; exact huid
    have hpts_nodup : ((update_points db tg 1 true).users_word.map
        (fun r => r.id)).Nodup := by
      rw [update_points_users_word]; exact hnodup
    obtain ⟨db2, hupd, hus, hwd, hsum⟩ :=
      update_times_shown_sum (update_points db tg 1 true) tg wid uid
        hpts_uid hpts_nodup
    refine ⟨db2, ?_, ?_⟩
    · simp only [check_answer, hbeq, if_pos]
      exact hupd
    · rw [hsum]
      have : exposure_sum (update_points db tg 1 true) (some uid) wid
          = exposure_sum db (some uid) wid := rfl
      rw [this]
  · intro h1 h2 h3 h4
    have b1 : ¬ (ans == ct) = true := by simpa using h1
    have b2 : ¬ (ans == BTN_VIEW_RATING) = true := by simpa using h2
    have b3 : ¬ (ans == BTN_ADD_WORD) = true := by simpa using h3
    have b4 : ¬ (ans == BTN_DEL_WORD) = true := by simpa using h4
    refine ⟨?_, rfl, ?_⟩ <;>
      simp only [check_answer, if_neg b1, if_neg b2, if_neg b3, if_neg b4]

/-- Claim C4 amended witness: a concrete correct answer raises exposure of
word 10 for user 100 from 2 to 3, a concrete wrong answer leaves it at 2. -/
theorem c4_witness :
    internal_user_id c4_db 100 = some 1
      ∧ (c4_db.users_word.map (fun r => r.id)).Nodup
      ∧ ((("cat" : String) = "cat" → ∃ db2,
            (check_answer c4_db 100 10 "cat" "cat").1 = some db2
              ∧ exposure_sum db2 (some 1) 10
                  = exposure_sum c4_db (some 1) 10 + 1)
        ∧ (("cat" : String) ≠ "cat" → "cat" ≠ BTN_VIEW_RATING →
            "cat" ≠ BTN_ADD_WORD → "cat" ≠ BTN_DEL_WORD →
            (check_answer c4_db 100 10 "cat" "cat").1
                = some (update_points c4_db 100 3 false)
              ∧ (update_points c4_db 100 3 false).users_word = c4_db.users_word
              ∧ (check_answer c4_db 100 10 "cat" "cat").2
                  = AnswerAction.wrong)) :=
  ⟨rfl, by decide, c4_exposure_only_on_correct c4_db 100 10 1 "cat" "cat"
    rfl (by decide)⟩

/-- Claim C5: one call to `update_times_shown` resolves the user's internal
id from the Telegram id, then either increments the first matching Exposure
row by exactly 1 — every other row surviving unchanged and no row appearing
or vanishing — or, when no row matches, appends a fresh row with
`times_shown = 1`; the other tables are untouched. -/
theorem c5_update_times_shown_upsert (db : DB) (tg wid uid : Nat)
    (huid : internal_user_id db tg = some uid)
    (hnodup : (db.users_word.map (fun r => r.id)).Nodup) :
    ∃ db2, update_times_shown db tg wid = some db2
      ∧ db2.users = db.users ∧ db2.word = db.word
      ∧ ((∃ r ∈ db.users_word, r.word_id = wid ∧ r.user_id = uid) →
          ∃ r0 ∈ db.users_word, r0.word_id = wid ∧ r0.user_id = uid
            ∧ { r0 with times_shown := r0.times_shown + 1 } ∈ db2.users_word
            ∧ (∀ r ∈ db.users_word, r.id ≠ r0.id → r ∈ db2.users_word)
            ∧ db2.users_word.length = db.users_word.length)
      ∧ ((∀ r ∈ db.users_word, ¬(r.word_id = wid ∧ r.user_id = uid)) →
          db2.users_word = db.users_word
            ++ [⟨next_users_word_id db, uid, wid, 1⟩]) := by
  cases hh : (db.users_word.filter (fun r =>
      decide (r.word_id = wid ∧ some r.user_id = some uid))).head? with
  | none =>
    have hempty := List.head?_eq_none_iff.mp hh
    have hnone : ∀ r ∈ db.users_word, ¬(r.word_id = wid ∧ r.user_id = uid) := by
      intro r hr hc
      have hq := List.filter_eq_nil_iff.mp hempty r hr
      exact hq (by simp [hc.1, hc.2])
    refine ⟨{ db with users_word := db.users_word
        ++ [⟨next_users_word_id db, uid, wid, 1⟩] },
      by simp only [update_times_shown, huid, hh], rfl, rfl, ?_, fun _ => rfl⟩
    rintro ⟨r, hr, hrw, hru⟩
    exact absurd ⟨hrw, hru⟩ (hnone r hr)
  | some row =>
    have hrowmem : row ∈ db.users_word.filter (fun r =>
        decide (r.word_id = wid ∧ some r.user_id = some uid)) :=
      List.mem_of_mem_head? (by rw [hh]; exact Option.mem_some_iff.mpr rfl)
    obtain ⟨hmem, hprop⟩ := List.mem_filter.mp hrowmem
    have hrow := of_decide_eq_true hprop
    have hru : row.user_id = uid := by
      have := hrow.2
      simpa using this
    refine ⟨{ db with users_word := db.users_word.map (fun r =>
        if r.id == row.id then { r with times_shown := r.times_shown + 1 }
        else r) },
      by simp only [update_times_shown, huid, hh], rfl, rfl, ?_, ?_⟩
    · intro _
      refine ⟨row, hmem, hrow.1, hru, ?_, ?_, by simp⟩
      · have hfr : (if row.id == row.id
            then { row with times_shown := row.times_shown + 1 } else row)
            = { row with times_shown := row.times_shown + 1 } := by simp
        exact List.mem_map.mpr ⟨row, hmem, hfr⟩
      · intro r hr hne
        have hfr : (if r.id == row.id
            then { r with times_shown := r.times_shown + 1 } else r) = r := by
          rw [if_neg]
          intro hc
          exact hne (by simpa using hc)
        exact List.mem_map.mpr ⟨r, hr, hfr⟩
    · intro hnone
      exact absurd ⟨hrow.1, hru⟩ (hnone row hmem)

/-- Claim C5 witness: user 100 (internal id 1) has one Exposure row for word
10; the call increments it from 3 to 4 and changes nothing else. -/
theorem c5_witness :
    internal_user_id c5_db 100 = some 1
      ∧ (c5_db.users_word.map (fun r => r.id)).Nodup
      ∧ ∃ db2, update_times_shown c5_db 100 10 = some db2
          ∧ db2.users = c5_db.users ∧ db2.word = c5_db.word
          ∧ ((∃ r ∈ c5_db.users_word, r.word_id = 10 ∧ r.user_id = 1) →
              ∃ r0 ∈ c5_db.users_word, r0.word_id = 10 ∧ r0.user_id = 1
                ∧ { r0 with times_shown := r0.times_shown + 1 } ∈ db2.users_word
                ∧ (∀ r ∈ c5_db.users_word, r.id ≠ r0.id → r ∈ db2.users_word)
                ∧ db2.users_word.length = c5_db.users_word.length)
          ∧ ((∀ r ∈ c5_db.users_word, ¬(r.word_id = 10 ∧ r.user_id = 1)) →
              db2.users_word = c5_db.users_word
                ++ [⟨next_users_word_id c5_db, 1, 10, 1⟩]) :=
  ⟨rfl, by decide, c5_update_times_shown_upsert c5_db 100 10 1 rfl (by decide)⟩

/-! ### Unfolding lemmas for the fuelled sources -/

lemma read_words_csv_f_zero (env : GenEnv) (u q : Nat) :
    read_words_csv_f env u 0 q = none := rfl

lemma read_words_bd_f_zero (env : GenEnv) (u q : Nat) :
    read_words_bd_f env u 0 q = none := rfl

lemma read_words_csv_f_succ (env : GenEnv) (u fuel q : Nat) :
    read_words_csv_f env u (fuel + 1) q
      = csv_body env (read_words_bd_f env u fuel) q := rfl

lemma read_words_bd_f_succ (env : GenEnv) (u fuel q : Nat) :
    read_words_bd_f env u (fuel + 1) q
      = bd_body env u (read_words_csv_f env u fuel) q := rfl

/-- The CSV row loop cannot raise when lookups and saves succeed. -/
lemma csvLoop_ok (db : DbIface)
    (hsearch : ∀ w, ∃ ro, db.searchWordGlobal w = Except.ok ro)
    (hsave : ∀ w t, ∃ i, db.saveWordGlobal w t = Except.ok i) :
    ∀ rows acc, ∃ d, csvLoop db rows acc = Except.ok d := by
  intro rows
  induction rows with
  | nil => intro acc; exact ⟨acc, rfl⟩
  | cons x rest ih =>
    intro acc
    obtain ⟨w, t⟩ := x
    obtain ⟨ro, hro⟩ := hsearch w
    cases ro with
    | some i =>
      obtain ⟨d, hd⟩ := ih (dictInsert acc w (t, i))
      refine ⟨d, ?_⟩
      unfold csvLoop
      rw [hro]
      exact hd
    | none =>
      obtain ⟨i, hi⟩ := hsave w t
      obtain ⟨d, hd⟩ := ih (dictInsert acc w (t, i))
      refine ⟨d, ?_⟩
      unfold csvLoop
      rw [hro, hi]
      exact hd

/-- The fallback loop cannot raise when lookups and saves succeed, and from
a nonempty sample it builds a nonempty dictionary. -/
lemma fallbackLoop_ok (db : DbIface)
    (hsearch : ∀ w, ∃ ro, db.searchWordGlobal w = Except.ok ro)
    (hsave : ∀ w t, ∃ i, db.saveWordGlobal w t = Except.ok i) :
    ∀ rows acc, ∃ d, fallbackLoop db rows acc = Except.ok d
      ∧ ((acc ≠ [] ∨ rows ≠ []) → d ≠ []) := by
  intro rows
  induction rows with
  | nil =>
    intro acc
    refine ⟨acc, rfl, ?_⟩
    rintro (h | h)
    · exact h
    · exact absurd rfl h
  | cons x rest ih =>
    intro acc
    obtain ⟨w, t⟩ := x
    obtain ⟨ro, hro⟩ := hsearch w
    cases ro with
    | some i =>
      obtain ⟨d, hd, hne⟩ := ih (dictInsert acc w t)
      refine ⟨d, ?_, fun _ => hne (Or.inl (dictInsert_ne_nil acc w t))⟩
      unfold fallbackLoop
      rw [hro]
      exact hd
    | none =>
      obtain ⟨i, hi⟩ := hsave w t
      obtain ⟨d, hd, hne⟩ := ih (dictInsert acc w t)
      refine ⟨d, ?_, fun _ => hne (Or.inl (dictInsert_ne_nil acc w t))⟩
      unfold fallbackLoop
      rw [hro, hi]
      exact hd

/-- The `except` clause only re-raises what its own `read_words_bd` call
raises. -/
lemma except_branch_ok (bdf : Nat → Option (Except String GenWordMap))
    (hbd : ∀ q r, bdf q = some r → ∃ m, r = Except.ok m)
    (q : Nat) (d : GenWordMap) (r : Except String GenWordMap)
    (h : except_branch bdf q d = some r) : ∃ m, r = Except.ok m := by
  unfold except_branch at h
  split at h
  · exact Option.noConfusion h
  · rename_i e heq
    obtain ⟨m, hm⟩ := hbd q _ heq
    simp at hm
  · exact ⟨_, (Option.some.inj h).symm⟩

/-- When the database layer raises nothing, neither word source ever
returns a raised exception: the only surviving outcomes are
non-termination and a mapping. -/
lemma sources_ok (env : GenEnv) (u : Nat)
    (hrand : ∀ a q fl, ∃ m,
      env.db.getRandomWordsForUser a q fl = Except.ok m)
    (hsearch : ∀ w, ∃ ro, env.db.searchWordGlobal w = Except.ok ro)
    (hsave : ∀ w t, ∃ i, env.db.saveWordGlobal w t = Except.ok i) :
    ∀ fuel q r,
      (read_words_csv_f env u fuel q = some r → ∃ m, r = Except.ok m)
      ∧ (read_words_bd_f env u fuel q = some r → ∃ m, r = Except.ok m) := by
  intro fuel
  induction fuel with
  | zero =>
    intro q r
    constructor
    · intro h
      rw [read_words_csv_f_zero] at h
      exact Option.noConfusion h
    · intro h
      rw [read_words_bd_f_zero] at h
      exact Option.noConfusion h
  | succ f ih =>
    intro q r
    have hbdok : ∀ q' r', read_words_bd_f env u f q' = some r'
        → ∃ m, r' = Except.ok m := fun q' r' => (ih q' r').2
    constructor
    · intro h
      rw [read_words_csv_f_succ] at h
      unfold csv_body at h
      split at h
      · exact except_branch_ok _ hbdok q [] r h
      · rename_i words heq
        split at h
        · exact except_branch_ok _ hbdok q _ r h
        · rename_i d heq2
          split at h
          · split at h
            · exact Option.noConfusion h
            · exact except_branch_ok _ hbdok q _ r h
            · split at h
              · exact except_branch_ok _ hbdok q _ r h
              · exact ⟨_, (Option.some.inj h).symm⟩
          · split at h
            · exact except_branch_ok _ hbdok q _ r h
            · exact ⟨_, (Option.some.inj h).symm⟩
    · intro h
      rw [read_words_bd_f_succ] at h
      unfold bd_body at h
      split at h
      · rename_i e heq
        obtain ⟨m, hm⟩ := hrand u q false
        rw [hm] at heq
        exact Except.noConfusion heq
      · rename_i result heq
        split at h
        · split at h
          · exact Option.noConfusion h
          · rename_i e heq2
            obtain ⟨m, hm⟩ := (ih _ _).1 heq2
            simp at hm
          · exact ⟨_, (Option.some.inj h).symm⟩
        · exact ⟨_, (Option.some.inj h).symm⟩

/-- `read_words_bd_added_user` likewise never returns a raised exception
when the database layer raises nothing. -/
lemma added_user_ok (env : GenEnv) (u : Nat)
    (hrand : ∀ a q fl, ∃ m,
      env.db.getRandomWordsForUser a q fl = Except.ok m)
    (hsearch : ∀ w, ∃ ro, env.db.searchWordGlobal w = Except.ok ro)
    (hsave : ∀ w t, ∃ i, env.db.saveWordGlobal w t = Except.ok i) :
    ∀ fuel r, read_words_bd_added_user_f env u fuel = some r
      → ∃ m, r = Except.ok m := by
  intro fuel r h
  cases fuel with
  | zero => exact Option.noConfusion h
  | succ f =>
    rw [show read_words_bd_added_user_f env u (f + 1)
        = (match env.db.getRandomWordsForUser u 4 true with
          | .error e => some (.error e)
          | .ok result =>
            if result.length < 4 then
              match read_words_bd_f env u f (4 - result.length) with
              | none => none
              | some (.error e) => some (.error e)
              | some (.ok w) => some (.ok (dictUpdate result w))
            else some (.ok result)) from rfl] at h
    split at h
    · rename_i e heq
      obtain ⟨m, hm⟩ := hrand u 4 true
      rw [hm] at heq
      exact Except.noConfusion heq
    · rename_i result heq
      split at h
      · split at h
        · exact Option.noConfusion h
        · rename_i e heq2
          obtain ⟨m, hm⟩ := (sources_ok env u hrand hsearch hsave f _ _).2 heq2
          simp at hm
        · exact ⟨_, (Option.some.inj h).symm⟩
      · exact ⟨_, (Option.some.inj h).symm⟩

/-- Claim C1 counterexample: with a storage layer whose queries raise,
choosing the general-pool source (flag 2) makes `word_generator` propagate
the storage exception to its caller instead of falling back — the `try`
protects only the round-assembly step, not the source calls. -/
theorem c1_counterexample :
    word_generator_f c1_bad_env 1 3 2 = some (Except.error "db failure") := rfl

/-- Claim C1 amended: only errors raised while assembling the round from the
returned mapping (an empty mapping) are caught and routed to the fallback
list; database exceptions inside the word sources propagate. Consequently,
whenever the database layer raises nothing and the fallback sample is
nonempty, every terminating call returns a usable round. -/
theorem c1_round_assembly_errors_only (env : GenEnv) (u fuel flag : Nat)
    (hrand : ∀ a q fl, ∃ m,
      env.db.getRandomWordsForUser a q fl = Except.ok m)
    (hsearch : ∀ w, ∃ ro, env.db.searchWordGlobal w = Except.ok ro)
    (hsave : ∀ w t, ∃ i, env.db.saveWordGlobal w t = Except.ok i)
    (hfb : env.sampleFallback fallback_words_list 4 ≠ []) :
    word_generator_f env u fuel flag = none
      ∨ ∃ round, word_generator_f env u fuel flag = some (Except.ok round) := by
  cases hs : chosen_source env u fuel flag with
  | none =>
    left
    unfold word_generator_f
    rw [hs]
  | some r =>
    have hok : ∃ m, r = Except.ok m := by
      unfold chosen_source at hs
      by_cases h0 : flag = 0
      · rw [if_pos h0] at hs
        exact (sources_ok env u hrand hsearch hsave fuel 4 r).1 hs
      · rw [if_neg h0] at hs
        by_cases h1 : flag = 1
        · rw [if_pos h1] at hs
          exact added_user_ok env u hrand hsearch hsave fuel r hs
        · rw [if_neg h1] at hs
          exact (sources_ok env u hrand hsearch hsave fuel 4 r).2 hs
    obtain ⟨m, rfl⟩ := hok
    right
    cases m with
    | cons p rest =>
      obtain ⟨w, tv⟩ := p
      refine ⟨(w, tv.1, rest.map (fun e => e.2.1), some tv.2), ?_⟩
      unfold word_generator_f
      rw [hs]
    | nil =>
      obtain ⟨fd, hfd, hfdne⟩ := fallbackLoop_ok env.db hsearch hsave
        (env.sampleFallback fallback_words_list 4) []
      have hne : fd ≠ [] := hfdne (Or.inr hfb)
      cases fd with
      | nil => exact absurd rfl hne
      | cons p rest =>
        obtain ⟨w, t⟩ := p
        obtain ⟨ro, hro⟩ := hsearch w
        refine ⟨(w, t, rest.map (fun e => e.2), ro), ?_⟩
        unfold word_generator_f
        rw [hs]
        unfold get_fallback_words_f
        rw [hfd]
        show (match env.db.searchWordGlobal w with
          | Except.error e => some (Except.error e)
          | Except.ok idw =>
              some (Except.ok (w, t, rest.map (fun e => e.2), idw)))
          = some (Except.ok (w, t, rest.map (fun e => e.2), ro))
        rw [hro]

/-- Claim C1 amended witness: under a healthy storage layer the call with
the general-pool source terminates with a usable round. -/
theorem c1_witness :
    word_generator_f c1_good_env 1 1 2 = none
      ∨ ∃ round, word_generator_f c1_good_env 1 1 2 = some (Except.ok round) :=
  c1_round_assembly_errors_only c1_good_env 1 1 2
    (fun _ _ _ => ⟨demo_map4, rfl⟩) (fun _ => ⟨some 1, rfl⟩)
    (fun _ _ => ⟨1, rfl⟩) (by decide)

/-- With both sources empty the mutual top-up loops for ever: no fuel makes
either source return. -/
lemma c10_empty_loop : ∀ fuel,
    read_words_csv_f c10_empty_env 1 fuel 4 = none
    ∧ read_words_bd_f c10_empty_env 1 fuel 4 = none := by
  intro fuel
  induction fuel with
  | zero => exact ⟨rfl, rfl⟩
  | succ f ih =>
    constructor
    · rw [read_words_csv_f_succ]
      show (match read_words_bd_f c10_empty_env 1 f 4 with
        | none => none
        | some (Except.error _) =>
            except_branch (read_words_bd_f c10_empty_env 1 f) 4 []
        | some (Except.ok r) => some (Except.ok (dictUpdate [] r))) = none
      rw [ih.2]
    · rw [read_words_bd_f_succ]
      show (match read_words_csv_f c10_empty_env 1 f 4 with
        | none => none
        | some (Except.error e) => some (Except.error e)
        | some (Except.ok w) =>
            some (Except.ok (dictUpdate ([] : GenWordMap) w))) = none
      rw [ih.1]

/-- Claim C10 counterexample: in the state where the pool query returns the
empty mapping and the CSV file is empty, the mutually recursive top-up
between `read_words_bd` and `read_words_csv` never returns — for the
default quantity 4 no recursion depth produces a result. -/
theorem c10_counterexample :
    (¬ ∃ fuel r, read_words_bd_f c10_empty_env 1 fuel 4 = some r)
    ∧ (¬ ∃ fuel r, read_words_csv_f c10_empty_env 1 fuel 4 = some r) := by
  constructor
  · rintro ⟨fuel, r, hr⟩
    rw [(c10_empty_loop fuel).2] at hr
    exact Option.noConfusion hr
  · rintro ⟨fuel, r, hr⟩
    rw [(c10_empty_loop fuel).1] at hr
    exact Option.noConfusion hr

/-- When every nonzero pool query yields at least one word (and at most the
requested number), both sources terminate: fuel `2q+2` suffices for
`read_words_bd` at quantity `q` and `2q+3` for `read_words_csv`. -/
lemma topup_terminates (env : GenEnv) (u : Nat)
    (hrand : ∀ q, 0 < q → ∃ m,
      env.db.getRandomWordsForUser u q false = Except.ok m
        ∧ 0 < m.length ∧ m.length ≤ q) :
    ∀ q, (∀ f, 2 * q + 2 ≤ f → read_words_bd_f env u f q ≠ none)
      ∧ (∀ f, 2 * q + 3 ≤ f → read_words_csv_f env u f q ≠ none) := by
  intro q
  induction q using Nat.strong_induction_on with
  | _ q IH =>
    have hbd : ∀ f, 2 * q + 2 ≤ f → read_words_bd_f env u f q ≠ none := by
      intro f hf
      obtain ⟨f₁, rfl⟩ : ∃ f₁, f = f₁ + 1 := ⟨f - 1, by omega⟩
      rw [read_words_bd_f_succ]
      by_cases hq : 0 < q
      · obtain ⟨m, hm, hm1, hmq⟩ := hrand q hq
        unfold bd_body
        rw [hm]
        show (if m.length < q then
            match read_words_csv_f env u f₁ (q - m.length) with
            | none => none
            | some (Except.error e) => some (Except.error e)
            | some (Except.ok w) => some (Except.ok (dictUpdate m w))
          else some (Except.ok m)) ≠ none
        by_cases hlt : m.length < q
        · rw [if_pos hlt]
          have hcsv := (IH (q - m.length) (by omega)).2 f₁ (by omega)
          obtain ⟨r₁, hr₁⟩ := Option.ne_none_iff_exists'.mp hcsv
          rw [hr₁]
          cases r₁ with
          | error e => simp
          | ok w => simp
        · rw [if_neg hlt]
          simp
      · have hq0 : q = 0 := by omega
        subst hq0
        unfold bd_body
        cases hgr : env.db.getRandomWordsForUser u 0 false with
        | error e =>
          show some (Except.error e) ≠ none
          simp
        | ok m =>
          show (if m.length < 0 then
              match read_words_csv_f env u f₁ (0 - m.length) with
              | none => none
              | some (Except.error e) => some (Except.error e)
              | some (Except.ok w) => some (Except.ok (dictUpdate m w))
            else some (Except.ok m)) ≠ none
          rw [if_neg (by omega)]
          simp
    refine ⟨hbd, ?_⟩
    intro f hf
    obtain ⟨f₁, rfl⟩ : ∃ f₁, f = f₁ + 1 := ⟨f - 1, by omega⟩
    rw [read_words_csv_f_succ]
    have hexc : ∀ d, except_branch (read_words_bd_f env u f₁) q d ≠ none := by
      intro d
      unfold except_branch
      obtain ⟨rb, hrb⟩ := Option.ne_none_iff_exists'.mp (hbd f₁ (by omega))
      rw [hrb]
      cases rb with
      | error e => simp
      | ok m => simp
    unfold csv_body
    split
    · exact hexc []
    · split
      · exact hexc _
      · rename_i words heq d heq2
        split
        · rename_i hlt
          have hbsmall : read_words_bd_f env u f₁ (q - d.length) ≠ none := by
            by_cases hd0 : d.length = 0
            · rw [hd0, Nat.sub_zero]
              exact hbd f₁ (by omega)
            · exact (IH (q - d.length) (by omega)).1 f₁ (by omega)
          obtain ⟨rb, hrb⟩ := Option.ne_none_iff_exists'.mp hbsmall
          rw [hrb]
          cases rb with
          | error e => exact hexc d
          | ok w =>
            show (match env.csvWrite with
              | Except.error _ =>
                  except_branch (read_words_bd_f env u f₁) q (dictUpdate d w)
              | Except.ok _ => some (Except.ok (dictUpdate d w))) ≠ none
            split
            · exact hexc _
            · simp
        · split
          · exact hexc _
          · simp

/-- Claim C10 amended: the mutual top-up terminates whenever the pool can
always supply at least one word per query; with both sources empty it loops
for ever (see the counterexample). -/
theorem c10_termination_with_productive_pool (env : GenEnv) (u : Nat)
    (hrand : ∀ q, 0 < q → ∃ m,
      env.db.getRandomWordsForUser u q false = Except.ok m
        ∧ 0 < m.length ∧ m.length ≤ q) :
    (∃ fuel r, read_words_bd_f env u fuel 4 = some r)
    ∧ (∃ fuel r, read_words_csv_f env u fuel 4 = some r) := by
  have h := topup_terminates env u hrand 4
  constructor
  · obtain ⟨r, hr⟩ := Option.ne_none_iff_exists'.mp (h.1 10 (by omega))
    exact ⟨10, r, hr⟩
  · obtain ⟨r, hr⟩ := Option.ne_none_iff_exists'.mp (h.2 11 (by omega))
    exact ⟨11, r, hr⟩

/-- Claim C10 amended witness: with a pool that always yields up to four
words, both sources terminate at quantity 4. -/
theorem c10_witness :
    (∃ fuel r, read_words_bd_f c10_good_env 1 fuel 4 = some r)
    ∧ (∃ fuel r, read_words_csv_f c10_good_env 1 fuel 4 = some r) :=
  c10_termination_with_productive_pool c10_good_env 1
    (fun q hq => ⟨demo_map4.take q, rfl, by
        rw [List.length_take]
        have hlen : demo_map4.length = 4 := rfl
        rw [hlen]
        omega, by
        rw [List.length_take]
        omega⟩)
